import Mathlib

/-!
Shallow embedding of the voice-turn orchestration logic of
`src/components/AutonomousVoiceAgent.tsx` (the primary variant cited by the
claims) together with the speech-synthesis call pattern of
`src/components/VoiceInterface.tsx`.

Modelling conventions:
* The component is a React function component; its `useState` cells are
  collected into one `AgentState` record.  Event handlers become pure
  functions `AgentState → AgentState × List Effect`, where `Effect` records
  the calls made to external collaborators (the remote store, the remote
  inference client, the speech synthesizer, the `onTaskComplete` callback,
  the console, timers).
* JavaScript is single threaded and callback driven; an `async` handler with
  one `await` on the remote inference call is split at that suspension point:
  `handleUserInputStart` is the code before `blink.ai.generateText` resolves
  (it records a pending call), `handleUserInputResponse` /
  `handleUserInputError` are the resolve / reject continuations.  Other
  events may be interleaved between the two halves, exactly as in the
  browser event loop.
* `Date.now()` timestamps and ids are modelled with a logical clock `now`
  that is threaded through the state.
* Numbers: step indices are `Nat`; the `progress` percentage
  `(currentStep / steps.length) * 100` is modelled in `ℚ`.  Every step list
  produced by the code has length 4 or 5 and every index stays below the
  length, and at the concrete values appearing in the claims (0, 20, 80) the
  IEEE-754 double computed by JavaScript is exactly the rational value, so
  the `ℚ` semantics agrees with the source at every point the theorems use.
* Elided as pure presentation detail: JSX rendering, the audio-level meter
  (`audioLevel`, `analyser`), the `agentThinking` display string, voice
  selection for utterances, and the exact prompt string assembled for the
  remote call (the `dispatch` effect keeps the user input and language that
  determine it).  The `speechSynthesis`-missing fallback branch of
  `speakResponse` is not modelled: the model fixes the Web Speech branch
  (`'speechSynthesis' in window` true), which is the branch the spec's
  synthesizer contract describes.
-/

namespace Brytt

/-- Language tag, source union type `'ja' | 'en'`. -/
inductive Lang
  | ja
  | en
deriving DecidableEq

/-- Speaker of a conversation turn, source union type `'user' | 'agent'`
(field `type` of `ConversationTurn`). -/
inductive Speaker
  | user
  | agent
deriving DecidableEq

/-- One exchange unit, mirroring `interface ConversationTurn`
(`AutonomousVoiceAgent.tsx` lines 9-18).  The optional `actions` field is
never written by the component and is omitted. -/
structure ConversationTurn where
  id : Nat
  speaker : Speaker
  content : String
  timestamp : Nat
  language : Lang
  reasoning : Option String := none
  confidence : Option ℚ := none
deriving DecidableEq

/-- Workflow kind, source union type `'onboarding' | 'followup' | 'logging'`. -/
inductive TaskType
  | onboarding
  | followup
  | logging
deriving DecidableEq

/-- Task status, source union type `'active' | 'completed' | 'failed'`. -/
inductive TaskStatus
  | active
  | completed
  | failed
deriving DecidableEq

/-- Tracked multi-step workflow, mirroring `interface TaskContext`
(`AutonomousVoiceAgent.tsx` lines 20-28; `customerInfo` is never written and
is omitted). -/
structure TaskContext where
  id : Nat
  type : TaskType
  status : TaskStatus
  steps : List String
  currentStep : Nat
  progress : ℚ
deriving DecidableEq

/-- Character class of the regex `/[぀-ゟ゠-ヿ一-龯]/`
(line 59). -/
def isJapaneseChar (c : Char) : Bool :=
  (decide (0x3040 ≤ c.toNat) && decide (c.toNat ≤ 0x309F)) ||
  (decide (0x30A0 ≤ c.toNat) && decide (c.toNat ≤ 0x30FF)) ||
  (decide (0x4E00 ≤ c.toNat) && decide (c.toNat ≤ 0x9FAF))

/-- `detectLanguage` (lines 58-61): `japaneseRegex.test(text)` holds iff some
character of the string is in the class. -/
def detectLanguage (text : String) : Lang :=
  if text.data.any isJapaneseChar then .ja else .en

/-- `String.prototype.includes`: `pat` occurs as a contiguous substring. -/
def containsSub (s pat : List Char) : Bool :=
  match s with
  | [] => pat.isEmpty
  | _ :: t => pat.isPrefixOf s || containsSub t pat

/-- JS `haystack.includes(needle)` on strings. -/
def jsIncludes (s pat : String) : Bool :=
  containsSub s.data pat.data

/-- JS `String.prototype.trim`, character by character.  It is only ever
used on transcripts and response texts, whose surrounding whitespace is
ASCII, where `Char.isWhitespace` agrees with the JS whitespace class. -/
def jsTrim (s : String) : String :=
  ⟨((s.data.dropWhile Char.isWhitespace).reverse.dropWhile Char.isWhitespace).reverse⟩

/-- JS `String.prototype.toLowerCase`, character by character.  The trigger
keywords it is compared against are ASCII or Japanese, on which the
ASCII-only `Char.toLower` agrees with the Unicode lowercasing of JS. -/
def jsToLowerCase (s : String) : String :=
  ⟨s.data.map Char.toLower⟩

/-- `determineTaskType` (lines 63-75): first-match-wins scan of the trigger
lexicons over the lowercased input. -/
def determineTaskType (input : String) : Option TaskType :=
  let lowerInput := jsToLowerCase input
  if jsIncludes lowerInput "契約" || jsIncludes lowerInput "登録" ||
     jsIncludes lowerInput "onboard" || jsIncludes lowerInput "register" then
    some .onboarding
  else if jsIncludes lowerInput "フォロー" || jsIncludes lowerInput "follow" ||
     jsIncludes lowerInput "メール" || jsIncludes lowerInput "email" then
    some .followup
  else if jsIncludes lowerInput "ログ" || jsIncludes lowerInput "記録" ||
     jsIncludes lowerInput "log" || jsIncludes lowerInput "visit" then
    some .logging
  else
    none

/-- `getTaskSteps` (lines 77-93). -/
def getTaskSteps : TaskType → Lang → List String
  | .onboarding, .ja => ["顧客情報収集", "ID確認", "プラン選択", "契約書生成", "メール送信"]
  | .onboarding, .en => ["Customer Info Collection", "ID Verification", "Plan Selection",
      "Contract Generation", "Email Sending"]
  | .followup, .ja => ["顧客状況確認", "フォローアップ内容作成", "メール/SMS送信", "結果記録"]
  | .followup, .en => ["Customer Status Check", "Follow-up Content Creation",
      "Email/SMS Sending", "Result Recording"]
  | .logging, .ja => ["訪問情報記録", "作業内容入力", "フォーム送信", "完了確認"]
  | .logging, .en => ["Visit Info Recording", "Work Content Input", "Form Submission",
      "Completion Confirmation"]

/-- Calls the component makes to its external collaborators.  Persistence
payload details that the claims do not mention (`totalSteps`, `language`,
`keigoMode`, `createdAt`, `updatedAt`, `userId`) are carried implicitly by
the task value / the update fields. -/
inductive Effect
  | dbCreateTask (t : TaskContext)
  | dbUpdateTask (id : Nat) (currentStep : Nat) (progress : ℚ) (status : TaskStatus)
  | taskComplete (t : TaskContext)
  | speak (text : String) (lang : Lang)
  | dispatch (input : String) (lang : Lang)
  | consoleError (msg : String)
  | scheduleContinue
  | scheduleWelcome (text : String) (lang : Lang)
  | stopRecognition
  | stopStream
deriving DecidableEq

/-- A `blink.ai.generateText` call that has been issued and whose promise has
not yet settled.  The continuation of `handleUserInput` closes over the
user input and the detected language; `turnId` is the id of the user turn. -/
structure PendingCall where
  input : String
  language : Lang
  turnId : Nat
deriving DecidableEq

/-- The component's `useState` cells (lines 35-46) plus the logical clock and
the set of in-flight remote calls.  `synthQueue` is the utterance queue of
the platform `speechSynthesis` object: `speak` appends, `cancel` clears. -/
structure AgentState where
  isActive : Bool
  isListening : Bool
  isSpeaking : Bool
  isProcessing : Bool
  keigoMode : Bool
  language : Lang
  conversation : List ConversationTurn
  currentTask : Option TaskContext
  transcript : String
  pending : List PendingCall
  synthQueue : List String
  streamAcquired : Bool
  recognitionReady : Bool
  now : Nat
deriving DecidableEq

/-- Initial state: the `useState` defaults of lines 35-46 (`keigoMode` true,
`language` 'ja', everything else off/empty). -/
def initState : AgentState :=
  { isActive := false, isListening := false, isSpeaking := false,
    isProcessing := false, keigoMode := true, language := .ja,
    conversation := [], currentTask := none, transcript := "",
    pending := [], synthQueue := [], streamAcquired := false,
    recognitionReady := false, now := 0 }

/-- `speakResponse` (lines 96-144), Web Speech branch: guard on empty text,
set `isSpeaking`, then `speechSynthesis.speak(utterance)` — which only
appends to the platform utterance queue; the prior utterance is NOT
cancelled. -/
def speakResponse (text : String) (lang : Lang) (s : AgentState) :
    AgentState × List Effect :=
  if jsTrim text = "" then (s, [])
  else
    ({ s with isSpeaking := true, synthQueue := s.synthQueue ++ [text] },
     [Effect.speak text lang])

/-- The new-task object literal of lines 154-161. -/
def mkTask (tt : TaskType) (lang : Lang) (now : Nat) : TaskContext :=
  { id := now, type := tt, status := .active,
    steps := getTaskSteps tt lang, currentStep := 0, progress := 0 }

/-- The update branch of `updateTaskContext` (lines 178-188):
`currentStep = Math.min(currentStep + 1, steps.length - 1)`, progress is
recomputed as `(currentStep / steps.length) * 100` (written with `mkRat`,
which denotes the same rational — see `advanceTask_progress_eq_div` — and
reduces in the kernel), and status flips to completed when the new index
reaches `steps.length - 1`.  The branch does not inspect the task's
previous status. -/
def advanceTask (t : TaskContext) : TaskContext :=
  let newStep := min (t.currentStep + 1) (t.steps.length - 1)
  { t with
    currentStep := newStep,
    progress := mkRat (newStep * 100) t.steps.length,
    status := if t.steps.length - 1 ≤ newStep then .completed else t.status }

/-- `updateTaskContext` (lines 147-203).  The source tests
`if (taskType && !currentTask)` and `else if (currentTask)`; the two guards
are disjoint, so matching on `currentTask` first is equivalent.  In the
update branch `onTaskComplete(updatedTask)` fires (when the new index has
reached the last step) before the store update is issued. -/
def updateTaskContext (input : String) (lang : Lang)
    (currentTask : Option TaskContext) (now : Nat) :
    Option TaskContext × List Effect :=
  match currentTask, determineTaskType input with
  | some t, _ =>
      let u := advanceTask t
      (some u,
       (if t.steps.length - 1 ≤ u.currentStep then [Effect.taskComplete u] else [])
         ++ [Effect.dbUpdateTask u.id u.currentStep u.progress u.status])
  | none, some tt =>
      (some (mkTask tt lang now), [Effect.dbCreateTask (mkTask tt lang now)])
  | none, none => (none, [])

/-- First half of `handleUserInput` (lines 219-272), up to the `await` on
`blink.ai.generateText`: the guard `if (isProcessing || isSpeaking) return`
(line 220) drops the input outright; otherwise the user turn is appended and
the remote call is dispatched, recorded here as a pending call. -/
def handleUserInputStart (input : String) (s : AgentState) :
    AgentState × List Effect :=
  if s.isProcessing || s.isSpeaking then (s, [])
  else
    let userTurn : ConversationTurn :=
      { id := s.now, speaker := .user, content := input,
        timestamp := s.now, language := detectLanguage input }
    ({ s with
        isProcessing := true, transcript := "",
        conversation := s.conversation ++ [userTurn],
        pending := s.pending ++ [⟨input, userTurn.language, s.now⟩],
        now := s.now + 1 },
     [Effect.dispatch input userTurn.language])

/-- Resolve-continuation of `handleUserInput` (lines 274-303 and the
`finally` of line 313) for the pending call `p`: append the agent turn,
run `updateTaskContext`, speak the response, schedule the task-flow timer
when the (pre-turn) task is active, and clear `isProcessing`.  No check of
any sequence number or of `isActive` takes place. -/
def respondStep (p : PendingCall) (rest : List PendingCall) (response : String)
    (s : AgentState) : AgentState × List Effect :=
  let agentTurn : ConversationTurn :=
    { id := s.now, speaker := .agent, content := response, timestamp := s.now,
      language := p.language, reasoning := some "AI analysis and task progression",
      confidence := some (mkRat 9 10) }
  let s1 := { s with conversation := s.conversation ++ [agentTurn], now := s.now + 1 }
  let ut := updateTaskContext p.input p.language s.currentTask s1.now
  let s2 := { s1 with currentTask := ut.1 }
  let sp := speakResponse response p.language s2
  let fxSched :=
    match s.currentTask with
    | some t => if t.status = .active then [Effect.scheduleContinue] else []
    | none => []
  ({ sp.1 with isProcessing := false, pending := rest },
   ut.2 ++ sp.2 ++ fxSched)

/-- The resolve-continuation attached to the oldest in-flight call; a
resolution arriving with no call in flight is impossible and leaves the
state unchanged. -/
def handleUserInputResponse (response : String) (s : AgentState) :
    AgentState × List Effect :=
  match s.pending with
  | [] => (s, [])
  | p :: rest => respondStep p rest response s

/-- Error message of the `catch` branch (lines 307-309), Japanese version. -/
def jaErrorMessage : String :=
  "すみません、処理中にエラーが発生しました。もう一度お試しください。"

/-- Error message of the `catch` branch (lines 307-309), English version. -/
def enErrorMessage : String :=
  "Sorry, there was an error processing your request. Please try again."

/-- Reject-continuation of `handleUserInput` (lines 305-314) for the pending
call `p`: speak a fallback message in the language of the triggering turn,
then clear `isProcessing` (the `finally`).  No agent turn is appended, the
task is untouched, and the transcript is not re-dispatched. -/
def errorStep (p : PendingCall) (rest : List PendingCall) (s : AgentState) :
    AgentState × List Effect :=
  let msg := if p.language = .ja then jaErrorMessage else enErrorMessage
  let sp := speakResponse msg p.language s
  ({ sp.1 with isProcessing := false, pending := rest }, sp.2)

/-- The reject-continuation attached to the oldest in-flight call. -/
def handleUserInputError (s : AgentState) : AgentState × List Effect :=
  match s.pending with
  | [] => (s, [])
  | p :: rest => errorStep p rest s

/-- `utterance.onend` / `onerror` (lines 119-125): clear `isSpeaking`; the
finished utterance leaves the platform queue. -/
def synthesisEnd (s : AgentState) : AgentState × List Effect :=
  ({ s with isSpeaking := false, synthQueue := s.synthQueue.drop 1 }, [])

/-- `initializeAudioVisualization` (lines 318-348): on success the
microphone stream is held; a `getUserMedia` rejection (permission denied /
no device) is caught at line 345 and merely logged to the console — the
failure is not re-thrown and no state is reset. -/
def initializeAudioVisualization (micGranted : Bool) (s : AgentState) :
    AgentState × List Effect :=
  if micGranted then ({ s with streamAcquired := true }, [])
  else (s, [Effect.consoleError "Error accessing microphone"])

/-- `initializeSpeechRecognition` (lines 351-414): builds the recognition
session object and installs its handlers. -/
def initializeSpeechRecognition (s : AgentState) : AgentState :=
  { s with recognitionReady := true }

/-- Welcome message of `toggleAgent` (lines 424-426). -/
def welcomeMessage : Lang → String
  | .ja => "BRYTT AIエージェントが起動しました。お話しください。"
  | .en => "BRYTT AI Agent is now active. Please speak."

/-- Start branch of `toggleAgent` (lines 417-430): `setIsActive(true)` runs
first, then audio initialization (whose failure is swallowed, see
`initializeAudioVisualization`), then recognition setup, then the welcome
message is scheduled.  Nothing in this path can leave the component
inactive or surface a device failure to the caller. -/
def toggleOn (micGranted : Bool) (s : AgentState) : AgentState × List Effect :=
  let s1 := { s with isActive := true }
  let av := initializeAudioVisualization micGranted s1
  let s3 := initializeSpeechRecognition av.1
  (s3, av.2 ++ [Effect.scheduleWelcome (welcomeMessage s.language) s.language])

/-- Stop branch of `toggleAgent` (lines 431-453): clear the four flags, stop
recognition and the stream, clear the timers.  The in-flight remote calls
cannot be revoked (`pending` is untouched) and `speechSynthesis.cancel()` is
never called (`synthQueue` is untouched). -/
def toggleOff (s : AgentState) : AgentState × List Effect :=
  ({ s with
      isActive := false, isListening := false, isSpeaking := false,
      isProcessing := false, streamAcquired := false },
   [Effect.stopRecognition, Effect.stopStream])

/-- External events the browser delivers to the started component. -/
inductive Event
  | finalTranscript (text : String)
  | response (text : String)
  | inferError
  | speechEnd
deriving DecidableEq

/-- Dispatch one event. `finalTranscript` models `recognition.onresult`
(lines 369-387): the transcript cell is updated and, when the final text is
nonempty after trimming, `handleUserInput(finalTranscript.trim())` runs. -/
def stepEv : Event → AgentState → AgentState × List Effect
  | .finalTranscript t, s =>
      let s1 := { s with transcript := t }
      if jsTrim t = "" then (s1, []) else handleUserInputStart (jsTrim t) s1
  | .response r, s => handleUserInputResponse r s
  | .inferError, s => handleUserInputError s
  | .speechEnd, s => synthesisEnd s

/-- Run a sequence of events, concatenating the effects. -/
def runEvents : AgentState → List Event → AgentState × List Effect
  | s, [] => (s, [])
  | s, e :: es =>
    let r1 := stepEv e s
    let r2 := runEvents r1.1 es
    (r2.1, r1.2 ++ r2.2)

/-- The platform `speechSynthesis` object on its own, for comparing the two
`speakResponse` variants: `speak` appends to the utterance queue, `cancel`
discards everything; every utterance still in the queue will be voiced and
will fire its own `end`/`error` event. -/
structure SynthState where
  queue : List String
deriving DecidableEq

/-- `speechSynthesis.speak(utterance)`. -/
def synthSpeak (text : String) (st : SynthState) : SynthState :=
  ⟨st.queue ++ [text]⟩

/-- `speechSynthesis.cancel()`. -/
def synthCancel (_ : SynthState) : SynthState :=
  ⟨[]⟩

/-- `speakResponse` of `VoiceInterface.tsx` (lines 40-73): this variant
calls `speechSynthesis.cancel()` before speaking, so the previous utterance
is discarded. -/
def viSpeakResponse (text : String) (st : SynthState) : SynthState :=
  synthSpeak text (synthCancel st)

/-- Effect classifier: a firing of the `onTaskComplete` callback. -/
def isTaskCompleteFx : Effect → Bool
  | .taskComplete _ => true
  | _ => false

/-- Effect classifier: a `blink.db.tasks.create` call. -/
def isDbCreateFx : Effect → Bool
  | .dbCreateTask _ => true
  | _ => false

/-- Effect classifier: a `blink.ai.generateText` dispatch. -/
def isDispatchFx : Effect → Bool
  | .dispatch _ _ => true
  | _ => false

/-- A started session: the user pressed Start and the microphone was
granted. -/
def demoStart : AgentState :=
  (toggleOn true initState).1

/-- A session with one turn mid-flight: the remote call for
"register new customer Tanaka" has been dispatched and has not yet
resolved (`isProcessing` is set, one pending call). -/
def demoDispatched : AgentState :=
  (handleUserInputStart "register new customer Tanaka" demoStart).1

/-- One full voice turn: final transcript, remote response, synthesis end. -/
def turnEvs (input response : String) : List Event :=
  [Event.finalTranscript input, Event.response response, Event.speechEnd]

/-- Invariant for the in-flight remote calls: at most one, and one is
pending only while `isProcessing` is set. -/
def inFlightInv (s : AgentState) : Prop :=
  s.pending.length ≤ 1 ∧ (s.pending ≠ [] → s.isProcessing = true)

/-- Invariant for the held task: its step list is nonempty and its index
is in bounds. -/
def taskInv (s : AgentState) : Prop :=
  ∀ t, s.currentTask = some t → 0 < t.steps.length ∧ t.currentStep < t.steps.length

/-- The held task's step index (0 when no task exists). -/
def stepIdx (s : AgentState) : Nat :=
  match s.currentTask with
  | some t => t.currentStep
  | none => 0

/-- An already-completed onboarding task sitting at its last step, exactly
as `updateTaskContext` leaves it after the fifth turn of an onboarding
conversation. -/
def completedOnboardingTask : TaskContext :=
  { id := 777, type := .onboarding, status := .completed,
    steps := getTaskSteps .onboarding .en, currentStep := 4,
    progress := mkRat (4 * 100) 5 }

/-- C6 scenario start: a started session with the UI language set to
English and formality set to casual. -/
def c6Start : AgentState :=
  (toggleOn true { initState with language := Lang.en, keigoMode := false }).1

/-- C6 scenario after the first completed turn. -/
def c6s1 : AgentState :=
  (runEvents c6Start (turnEvs "register new customer Tanaka" "Welcome. Starting onboarding.")).1

/-- C6 scenario after the second completed turn. -/
def c6s2 : AgentState :=
  (runEvents c6s1 (turnEvs "ok" "Great, moving on.")).1

/-- Six completed turns: the first creates an onboarding task; each later
one advances it. -/
def c3Events : List Event :=
  turnEvs "register new customer Tanaka" "Step one." ++ turnEvs "next" "Step two." ++
  turnEvs "next" "Step three." ++ turnEvs "next" "Step four." ++
  turnEvs "next" "Step five." ++ turnEvs "next" "Step six."

/-- Stop pressed while the "register new customer Tanaka" call is still in
flight. -/
def c1Stopped : AgentState :=
  (toggleOff demoDispatched).1

/-- The stale response arriving after the stop. -/
def c1Final : AgentState :=
  (handleUserInputResponse "Understood. Starting onboarding." c1Stopped).1

/-- The stored progress is exactly the source expression
`(currentStep / steps.length) * 100` read in exact arithmetic, for any
nonempty step list. -/
theorem advanceTask_progress_eq_div (t : TaskContext) (h : t.steps.length ≠ 0) :
    (advanceTask t).progress =
      ((advanceTask t).currentStep : ℚ) / (t.steps.length : ℚ) * 100 := by
  have hprog : (advanceTask t).progress
      = mkRat ((advanceTask t).currentStep * 100) t.steps.length := rfl
  have hq : (t.steps.length : ℚ) ≠ 0 := Nat.cast_ne_zero.mpr h
  rw [hprog, Rat.mkRat_eq_div]
  push_cast
  field_simp

/-- Every step list the code can produce has 4 or 5 entries. -/
theorem getTaskSteps_length_pos (tt : TaskType) (lang : Lang) :
    0 < (getTaskSteps tt lang).length := by
  cases tt <;> cases lang <;> decide

/-- Unfolding lemma: the update branch of `updateTaskContext`. -/
theorem updateTaskContext_some (input : String) (lang : Lang) (t : TaskContext)
    (n : Nat) :
    updateTaskContext input lang (some t) n =
      (some (advanceTask t),
       (if t.steps.length - 1 ≤ (advanceTask t).currentStep then
          [Effect.taskComplete (advanceTask t)] else [])
         ++ [Effect.dbUpdateTask (advanceTask t).id (advanceTask t).currentStep
              (advanceTask t).progress (advanceTask t).status]) := rfl

/-- Unfolding lemma: the creation branch of `updateTaskContext`. -/
theorem updateTaskContext_create (input : String) (lang : Lang) (n : Nat)
    (tt : TaskType) (hdt : determineTaskType input = some tt) :
    updateTaskContext input lang none n =
      (some (mkTask tt lang n), [Effect.dbCreateTask (mkTask tt lang n)]) := by
  unfold updateTaskContext
  rw [hdt]

/-- `speakResponse` never touches the held task. -/
theorem speakResponse_currentTask (text : String) (lang : Lang) (s : AgentState) :
    ((speakResponse text lang s).1).currentTask = s.currentTask := by
  unfold speakResponse
  split <;> rfl

/-- `speakResponse` never touches the conversation log. -/
theorem speakResponse_conversation (text : String) (lang : Lang) (s : AgentState) :
    ((speakResponse text lang s).1).conversation = s.conversation := by
  unfold speakResponse
  split <;> rfl

/-- `speakResponse` never touches the in-flight calls. -/
theorem speakResponse_pending (text : String) (lang : Lang) (s : AgentState) :
    ((speakResponse text lang s).1).pending = s.pending := by
  unfold speakResponse
  split <;> rfl

/-- `speakResponse` never touches `isActive`. -/
theorem speakResponse_isActive (text : String) (lang : Lang) (s : AgentState) :
    ((speakResponse text lang s).1).isActive = s.isActive := by
  unfold speakResponse
  split <;> rfl

/-- `speakResponse` emits no effect except the utterance itself. -/
theorem speakResponse_snd (text : String) (lang : Lang) (s : AgentState) :
    (speakResponse text lang s).2 = if jsTrim text = "" then [] else [Effect.speak text lang] := by
  unfold speakResponse
  split <;> simp_all

/-- The resolve-continuation acts on the oldest pending call. -/
theorem handleUserInputResponse_eq (response : String) (s : AgentState)
    (p : PendingCall) (rest : List PendingCall) (hp : s.pending = p :: rest) :
    handleUserInputResponse response s = respondStep p rest response s := by
  unfold handleUserInputResponse
  rw [hp]

/-- The reject-continuation acts on the oldest pending call. -/
theorem handleUserInputError_eq (s : AgentState)
    (p : PendingCall) (rest : List PendingCall) (hp : s.pending = p :: rest) :
    handleUserInputError s = errorStep p rest s := by
  unfold handleUserInputError
  rw [hp]

/-- Every event preserves the in-flight invariant: the `isProcessing`
guard of `handleUserInput` admits a new dispatch only when no call is in
flight, and each continuation retires the call it belongs to. -/
theorem inFlightInv_stepEv (e : Event) (s : AgentState) (h : inFlightInv s) :
    inFlightInv (stepEv e s).1 := by
  obtain ⟨h1, h2⟩ := h
  cases e with
  | finalTranscript t =>
    simp only [stepEv]
    split
    · exact ⟨h1, h2⟩
    · unfold handleUserInputStart
      split
      · exact ⟨h1, h2⟩
      · rename_i hguard
        simp only [Bool.or_eq_true, not_or] at hguard
        have hproc : s.isProcessing = false := by
          cases hb : s.isProcessing
          · rfl
          · exact absurd hb hguard.1
        have hemp : s.pending = [] := by
          by_contra hne
          rw [h2 hne] at hproc
          cases hproc
        refine ⟨?_, fun _ => rfl⟩
        simp [hemp]
  | response r =>
    cases hp : s.pending with
    | nil =>
      simp only [stepEv]
      unfold handleUserInputResponse
      rw [hp]
      exact ⟨h1, h2⟩
    | cons p rest =>
      have hrest : rest = [] := by
        rw [hp] at h1
        simpa using h1
      simp only [stepEv, handleUserInputResponse_eq r s p rest hp]
      refine ⟨?_, ?_⟩
      · show rest.length ≤ 1
        rw [hrest]
        decide
      · intro hne
        rw [hrest] at hne
        exact absurd rfl hne
  | inferError =>
    cases hp : s.pending with
    | nil =>
      simp only [stepEv]
      unfold handleUserInputError
      rw [hp]
      exact ⟨h1, h2⟩
    | cons p rest =>
      have hrest : rest = [] := by
        rw [hp] at h1
        simpa using h1
      simp only [stepEv, handleUserInputError_eq s p rest hp]
      refine ⟨?_, ?_⟩
      · show rest.length ≤ 1
        rw [hrest]
        decide
      · intro hne
        rw [hrest] at hne
        exact absurd rfl hne
  | speechEnd =>
    exact ⟨h1, h2⟩

/-- The in-flight invariant holds along every event sequence. -/
theorem inFlightInv_runEvents (evs : List Event) (s : AgentState)
    (h : inFlightInv s) : inFlightInv (runEvents s evs).1 := by
  induction evs generalizing s with
  | nil => exact h
  | cons e es ih => exact ih (stepEv e s).1 (inFlightInv_stepEv e s h)

/-- `updateTaskContext` keeps the task index strictly below the (nonempty)
step-list length. -/
theorem updateTaskContext_bound (input : String) (lang : Lang)
    (cur : Option TaskContext) (n : Nat)
    (h : ∀ t, cur = some t → 0 < t.steps.length ∧ t.currentStep < t.steps.length) :
    ∀ u, (updateTaskContext input lang cur n).1 = some u →
      0 < u.steps.length ∧ u.currentStep < u.steps.length := by
  intro u hu
  cases cur with
  | some t =>
    rw [updateTaskContext_some] at hu
    obtain ⟨hlen, _⟩ := h t rfl
    cases hu
    refine ⟨hlen, ?_⟩
    show min (t.currentStep + 1) (t.steps.length - 1) < t.steps.length
    omega
  | none =>
    cases hdt : determineTaskType input with
    | some tt =>
      rw [updateTaskContext_create input lang n tt hdt] at hu
      cases hu
      exact ⟨getTaskSteps_length_pos tt lang, getTaskSteps_length_pos tt lang⟩
    | none =>
      unfold updateTaskContext at hu
      rw [hdt] at hu
      cases hu

/-- `updateTaskContext` never moves the index of a held task backwards. -/
theorem updateTaskContext_mono (input : String) (lang : Lang)
    (t : TaskContext) (n : Nat) (h : t.currentStep < t.steps.length) :
    ∀ u, (updateTaskContext input lang (some t) n).1 = some u →
      t.currentStep ≤ u.currentStep := by
  intro u hu
  rw [updateTaskContext_some] at hu
  cases hu
  show t.currentStep ≤ min (t.currentStep + 1) (t.steps.length - 1)
  omega

/-- Every event preserves the task invariant and never moves the step
index backwards. -/
theorem taskInv_stepEv (e : Event) (s : AgentState) (h : taskInv s) :
    taskInv (stepEv e s).1 ∧ stepIdx s ≤ stepIdx (stepEv e s).1 := by
  cases e with
  | finalTranscript t =>
    have hsame : (stepEv (Event.finalTranscript t) s).1.currentTask = s.currentTask := by
      simp only [stepEv]
      split
      · rfl
      · unfold handleUserInputStart
        split <;> rfl
    constructor
    · intro u hu
      exact h u (hsame ▸ hu)
    · unfold stepIdx
      rw [hsame]
  | response r =>
    cases hp : s.pending with
    | nil =>
      have hsame : (stepEv (Event.response r) s).1 = s := by
        simp only [stepEv]
        unfold handleUserInputResponse
        rw [hp]
      rw [hsame]
      exact ⟨h, Nat.le_refl _⟩
    | cons p rest =>
      have hcur : (stepEv (Event.response r) s).1.currentTask
          = (updateTaskContext p.input p.language s.currentTask (s.now + 1)).1 := by
        simp only [stepEv, handleUserInputResponse_eq r s p rest hp]
        unfold respondStep
        exact speakResponse_currentTask _ _ _
      constructor
      · intro u hu
        exact updateTaskContext_bound p.input p.language s.currentTask (s.now + 1) h u
          (hcur ▸ hu)
      · unfold stepIdx
        rw [hcur]
        cases hc : s.currentTask with
        | none => exact Nat.zero_le _
        | some t =>
          rw [updateTaskContext_some]
          exact updateTaskContext_mono p.input p.language t (s.now + 1)
            (h t hc).2 (advanceTask t) (by rw [updateTaskContext_some])
  | inferError =>
    cases hp : s.pending with
    | nil =>
      have hsame : (stepEv Event.inferError s).1 = s := by
        simp only [stepEv]
        unfold handleUserInputError
        rw [hp]
      rw [hsame]
      exact ⟨h, Nat.le_refl _⟩
    | cons p rest =>
      have hcur : (stepEv Event.inferError s).1.currentTask = s.currentTask := by
        simp only [stepEv, handleUserInputError_eq s p rest hp]
        unfold errorStep
        exact speakResponse_currentTask _ _ _
      constructor
      · intro u hu
        exact h u (hcur ▸ hu)
      · unfold stepIdx
        rw [hcur]
  | speechEnd =>
    exact ⟨fun u hu => h u hu, Nat.le_refl _⟩

/-- The task invariant and step-index monotonicity hold along every event
sequence. -/
theorem taskInv_runEvents (evs : List Event) (s : AgentState) (h : taskInv s) :
    taskInv (runEvents s evs).1 ∧ stepIdx s ≤ stepIdx (runEvents s evs).1 := by
  induction evs generalizing s with
  | nil => exact ⟨h, Nat.le_refl _⟩
  | cons e es ih =>
    obtain ⟨h1, h2⟩ := taskInv_stepEv e s h
    obtain ⟨h3, h4⟩ := ih (stepEv e s).1 h1
    exact ⟨h3, Nat.le_trans h2 h4⟩

/-- The resolve-continuation appends the agent turn unconditionally. -/
theorem respondStep_conversation (p : PendingCall) (rest : List PendingCall)
    (response : String) (s : AgentState) :
    (respondStep p rest response s).1.conversation
      = s.conversation ++
        [{ id := s.now, speaker := .agent, content := response,
           timestamp := s.now, language := p.language,
           reasoning := some "AI analysis and task progression",
           confidence := some (mkRat 9 10) }] := by
  simp only [respondStep]
  rw [speakResponse_conversation]

/-- The resolve-continuation installs exactly the `updateTaskContext`
result. -/
theorem respondStep_currentTask (p : PendingCall) (rest : List PendingCall)
    (response : String) (s : AgentState) :
    (respondStep p rest response s).1.currentTask
      = (updateTaskContext p.input p.language s.currentTask (s.now + 1)).1 := by
  simp only [respondStep]
  rw [speakResponse_currentTask]

/-- C1 (corrected): a concrete run refuting stale-result rejection.  Start
the agent, say "register new customer Tanaka" (the remote call is
dispatched), press Stop before the response arrives.  After the stop the
log holds 1 turn and no task exists; when the response then arrives it
appends the agent turn (log grows to 2) and creates a task — the state IS
mutated, because no turn-sequence number exists anywhere in the code. -/
theorem C1_counterexample :
    c1Stopped.isActive = false ∧
    c1Stopped.conversation.length = 1 ∧
    c1Stopped.currentTask = none ∧
    c1Final.conversation.length = 2 ∧
    c1Final.currentTask.isSome = true := by
  decide

/-- C1 (amended): for every state with a call in flight, calling `stop()`
and then letting the response arrive still appends an agent turn to the
conversation log and still runs the task update (here: creates a task,
since the dispatched input matches a trigger and no task was held).  The
response callback checks no sequence number and no activity flag. -/
theorem C1_amended (s : AgentState) (p : PendingCall) (rest : List PendingCall)
    (response : String) (hp : s.pending = p :: rest)
    (hmatch : (determineTaskType p.input).isSome = true)
    (hnone : s.currentTask = none) :
    ((toggleOff s).1.isActive = false) ∧
    ((handleUserInputResponse response (toggleOff s).1).1.conversation.length
       = s.conversation.length + 1) ∧
    ((handleUserInputResponse response (toggleOff s).1).1.currentTask.isSome = true) := by
  have hp' : (toggleOff s).1.pending = p :: rest := hp
  rw [handleUserInputResponse_eq response _ p rest hp']
  refine ⟨rfl, ?_, ?_⟩
  · rw [respondStep_conversation]
    have hconv : (toggleOff s).1.conversation = s.conversation := rfl
    rw [hconv]
    simp
  · rw [respondStep_currentTask]
    have hcur : (toggleOff s).1.currentTask = none := hnone
    rw [hcur]
    obtain ⟨tt, hdt⟩ := Option.isSome_iff_exists.mp hmatch
    rw [updateTaskContext_create _ _ _ tt hdt]
    rfl

/-- C1 witness: the amended theorem applied to the concrete mid-flight
state. -/
theorem C1_witness :
    ((toggleOff demoDispatched).1.isActive = false) ∧
    ((handleUserInputResponse "Understood." (toggleOff demoDispatched).1).1.conversation.length
       = demoDispatched.conversation.length + 1) ∧
    ((handleUserInputResponse "Understood." (toggleOff demoDispatched).1).1.currentTask.isSome
       = true) :=
  C1_amended demoDispatched ⟨"register new customer Tanaka", Lang.en, 0⟩ [] "Understood."
    (by decide) (by decide) (by decide)

/-- C2 (corrected): a transcript finalized while a turn is mid-flight is
dropped, not queued: `handleUserInput` returns with the state unchanged
and no effect, and the dropped text is never dispatched nor logged by the
rest of the run. -/
theorem C2_counterexample :
    handleUserInputStart "please log the visit" demoDispatched = (demoDispatched, []) ∧
    ((runEvents demoDispatched [Event.response "Done.", Event.speechEnd]).1.conversation.countP
       (fun turn => decide (turn.content = "please log the visit")) = 0) ∧
    ((runEvents demoDispatched [Event.response "Done.", Event.speechEnd]).2.countP
       (fun fx => decide (fx = Effect.dispatch "please log the visit" Lang.en)) = 0) := by
  decide

/-- C2 (amended): at most one remote-inference dispatch is in flight at a
time — the `isProcessing`/`isSpeaking` guard admits a new dispatch only
when none is pending, and every event preserves that invariant — but a
transcript finalized during `dispatching`/`speaking` is dropped
(state unchanged, no effect), not queued. -/
theorem C2_amended :
    (∀ (s : AgentState) (input : String), (s.isProcessing || s.isSpeaking) = true →
       handleUserInputStart input s = (s, [])) ∧
    (∀ (e : Event) (s : AgentState), inFlightInv s → inFlightInv (stepEv e s).1) ∧
    (∀ (evs : List Event) (s : AgentState), inFlightInv s → inFlightInv (runEvents s evs).1) := by
  refine ⟨?_, inFlightInv_stepEv, inFlightInv_runEvents⟩
  intro s input hbusy
  unfold handleUserInputStart
  rw [if_pos hbusy]

/-- C2 witness: the amended theorem applied to the concrete mid-flight
state and to a started session. -/
theorem C2_witness :
    handleUserInputStart "hello" demoDispatched = (demoDispatched, []) ∧
    inFlightInv (stepEv Event.speechEnd demoStart).1 ∧
    inFlightInv (runEvents demoStart [Event.speechEnd]).1 :=
  ⟨C2_amended.1 demoDispatched "hello" (by decide),
   C2_amended.2.1 Event.speechEnd demoStart ⟨by decide, fun h => absurd rfl h⟩,
   C2_amended.2.2 [Event.speechEnd] demoStart ⟨by decide, fun h => absurd rfl h⟩⟩

/-- C3 (corrected): over six completed turns of an onboarding conversation
the `onTaskComplete` callback fires twice (at the transition into
completed on turn five, and again on turn six), not exactly once. -/
theorem C3_counterexample :
    ((runEvents demoStart c3Events).2.countP isTaskCompleteFx = 2) ∧
    ¬((runEvents demoStart c3Events).2.countP isTaskCompleteFx = 1) := by
  decide

/-- C3 (amended): on a turn with a held task, the completion callback
fires exactly when the updated index reaches the last step — that is,
whenever `steps.length ≤ currentStep + 2`, which stays true on every turn
after completion because `updateTaskContext` never checks the task's
status.  A completed task at the last index keeps all its field values on
such a turn, but the callback (and a store update) fire again. -/
theorem C3_amended (t : TaskContext) (input : String) (lang : Lang) (n : Nat)
    (hlen : 0 < t.steps.length) :
    ((updateTaskContext input lang (some t) n).2.countP isTaskCompleteFx
       = if t.steps.length ≤ t.currentStep + 2 then 1 else 0) ∧
    (t.status = .completed → t.currentStep = t.steps.length - 1 →
      t.progress = mkRat (t.currentStep * 100) t.steps.length →
      (updateTaskContext input lang (some t) n).1 = some t ∧
      (updateTaskContext input lang (some t) n).2.countP isTaskCompleteFx = 1) := by
  have hmin : (advanceTask t).currentStep = min (t.currentStep + 1) (t.steps.length - 1) := rfl
  constructor
  · rw [updateTaskContext_some]
    by_cases hc : t.steps.length - 1 ≤ (advanceTask t).currentStep
    · rw [if_pos hc]
      have h2 : t.steps.length ≤ t.currentStep + 2 := by
        rw [hmin] at hc
        omega
      rw [if_pos h2]
      simp [List.countP_cons, isTaskCompleteFx]
    · rw [if_neg hc]
      have h2 : ¬ t.steps.length ≤ t.currentStep + 2 := by
        rw [hmin] at hc
        omega
      rw [if_neg h2]
      simp [List.countP_cons, isTaskCompleteFx]
  · intro hst hstep hprog
    have hfix : advanceTask t = t := by
      obtain ⟨tid, ty, st, steps, cur, prog⟩ := t
      simp only at hst hstep hprog
      subst hstep
      subst hst
      have hmin2 : min (steps.length - 1 + 1) (steps.length - 1) = steps.length - 1 := by
        omega
      simp only at hlen
      simp [advanceTask, hmin2, hprog]
    have hfire : t.steps.length - 1 ≤ (advanceTask t).currentStep := by
      rw [hfix, hstep]
    constructor
    · rw [updateTaskContext_some, hfix]
    · rw [updateTaskContext_some]
      rw [if_pos hfire]
      simp [List.countP_cons, isTaskCompleteFx]

/-- C3 witness: the amended theorem applied to the completed onboarding
task at its last step. -/
theorem C3_witness :
    ((updateTaskContext "next" Lang.en (some completedOnboardingTask) 9).2.countP isTaskCompleteFx
       = if completedOnboardingTask.steps.length ≤ completedOnboardingTask.currentStep + 2
         then 1 else 0) ∧
    ((updateTaskContext "next" Lang.en (some completedOnboardingTask) 9).1
       = some completedOnboardingTask ∧
     (updateTaskContext "next" Lang.en (some completedOnboardingTask) 9).2.countP
       isTaskCompleteFx = 1) :=
  ⟨(C3_amended completedOnboardingTask "next" Lang.en 9 (by decide)).1,
   (C3_amended completedOnboardingTask "next" Lang.en 9 (by decide)).2
     (by decide) (by decide) (by decide)⟩

/-- C4 (corrected): a concrete input refuting creation-on-no-active-task.
The held onboarding task is completed (so no TaskContext is active), the
input matches the onboarding trigger lexicon, yet no task is created: the
guard tests `!currentTask` (existence), not activity, so the turn instead
advances the terminal task (same id 777). -/
theorem C4_counterexample :
    (completedOnboardingTask.status ≠ TaskStatus.active) ∧
    ((determineTaskType "register new customer Suzuki").isSome = true) ∧
    ((updateTaskContext "register new customer Suzuki" Lang.en
        (some completedOnboardingTask) 999).2.countP isDbCreateFx = 0) ∧
    ((updateTaskContext "register new customer Suzuki" Lang.en
        (some completedOnboardingTask) 999).1.map (fun t => t.id) = some 777) := by
  decide

/-- C4 (amended): exactly one TaskContext is created iff the input matches
a trigger lexicon and NO TaskContext exists at all (`currentTask` null —
active or terminal both block creation); with a held task the turn keeps
the same task id, so a second task is never created, and the single
`currentTask` cell structurally holds at most one task per orchestrator
instance. -/
theorem C4_amended (input : String) (lang : Lang) (cur : Option TaskContext) (n : Nat) :
    ((updateTaskContext input lang cur n).2.countP isDbCreateFx
       = if (determineTaskType input).isSome && cur.isNone then 1 else 0) ∧
    (∀ t, cur = some t →
      ∃ u, (updateTaskContext input lang cur n).1 = some u ∧ u.id = t.id) ∧
    (cur = none → ∀ tt, determineTaskType input = some tt →
      (updateTaskContext input lang cur n).1 = some (mkTask tt lang n)) := by
  refine ⟨?_, ?_, ?_⟩
  · cases cur with
    | some t =>
      rw [updateTaskContext_some]
      by_cases hc : t.steps.length - 1 ≤ (advanceTask t).currentStep
      · rw [if_pos hc]
        simp [List.countP_cons, isDbCreateFx]
      · rw [if_neg hc]
        simp [List.countP_cons, isDbCreateFx]
    | none =>
      cases hdt : determineTaskType input with
      | some tt =>
        rw [updateTaskContext_create _ _ _ tt hdt]
        simp [List.countP_cons, isDbCreateFx, hdt]
      | none =>
        unfold updateTaskContext
        rw [hdt]
        simp [hdt]
  · intro t hc
    subst hc
    rw [updateTaskContext_some]
    exact ⟨advanceTask t, rfl, rfl⟩
  · intro hc tt hdt
    subst hc
    rw [updateTaskContext_create _ _ _ tt hdt]

/-- C4 witness: the amended theorem applied to the completed held task and
to an empty task cell. -/
theorem C4_witness :
    ((updateTaskContext "register" Lang.ja (some completedOnboardingTask) 5).2.countP isDbCreateFx
       = if (determineTaskType "register").isSome && (some completedOnboardingTask).isNone
         then 1 else 0) ∧
    (∃ u, (updateTaskContext "register" Lang.ja (some completedOnboardingTask) 5).1 = some u ∧
       u.id = completedOnboardingTask.id) ∧
    ((updateTaskContext "register" Lang.ja none 5).1
       = some (mkTask TaskType.onboarding Lang.ja 5)) :=
  ⟨(C4_amended "register" Lang.ja (some completedOnboardingTask) 5).1,
   (C4_amended "register" Lang.ja (some completedOnboardingTask) 5).2.1
     completedOnboardingTask rfl,
   (C4_amended "register" Lang.ja none 5).2.2 rfl TaskType.onboarding (by decide)⟩

/-- C5 (confirmed): along every event sequence the held task's
`currentStep` never decreases and always stays strictly below
`steps.length` (that is, never exceeds `steps.length - 1`, the step list
being nonempty), and one completed turn with a held task advances the
index by exactly one, clamped at `steps.length - 1` (the stored progress
being `(currentStep / steps.length) * 100`, see
`advanceTask_progress_eq_div`). -/
theorem C5_step_monotonicity :
    (∀ (s : AgentState) (evs : List Event), taskInv s →
       taskInv (runEvents s evs).1 ∧ stepIdx s ≤ stepIdx (runEvents s evs).1) ∧
    (∀ (t : TaskContext) (input : String) (lang : Lang) (n : Nat),
       (updateTaskContext input lang (some t) n).1 =
         some { t with
           currentStep := min (t.currentStep + 1) (t.steps.length - 1),
           progress := mkRat (min (t.currentStep + 1) (t.steps.length - 1) * 100)
             t.steps.length,
           status := if t.steps.length - 1 ≤ min (t.currentStep + 1) (t.steps.length - 1)
                     then TaskStatus.completed else t.status }) :=
  ⟨fun s evs h => taskInv_runEvents evs s h,
   fun _ _ _ _ => rfl⟩

/-- C5 witness: the invariant run over a concrete turn from the started
session, and the clamped advance on the concrete completed task. -/
theorem C5_witness :
    (taskInv (runEvents demoStart (turnEvs "register new customer Tanaka" "OK.")).1 ∧
     stepIdx demoStart
       ≤ stepIdx (runEvents demoStart (turnEvs "register new customer Tanaka" "OK.")).1) ∧
    ((updateTaskContext "next" Lang.en (some completedOnboardingTask) 5).1 =
       some { completedOnboardingTask with
         currentStep := min (completedOnboardingTask.currentStep + 1)
           (completedOnboardingTask.steps.length - 1),
         progress := mkRat (min (completedOnboardingTask.currentStep + 1)
           (completedOnboardingTask.steps.length - 1) * 100)
           completedOnboardingTask.steps.length,
         status := if completedOnboardingTask.steps.length - 1
             ≤ min (completedOnboardingTask.currentStep + 1)
                 (completedOnboardingTask.steps.length - 1)
           then TaskStatus.completed else completedOnboardingTask.status }) :=
  ⟨C5_step_monotonicity.1 demoStart (turnEvs "register new customer Tanaka" "OK.")
     (fun _ h => nomatch h),
   C5_step_monotonicity.2 completedOnboardingTask "next" Lang.en 5⟩

/-- C6 (confirmed): processing "register new customer Tanaka" in a started
English/casual session with no task creates an active onboarding
TaskContext with 5 steps, index 0 and progress 0; after one more completed
turn the same task (same id, same 5-step English list) has index 1 and
progress 20. -/
theorem C6_onboarding_scenario :
    (c6s1.currentTask.map
       (fun t => (t.type, t.status, t.steps.length, t.currentStep, t.progress))
       = some (TaskType.onboarding, TaskStatus.active, 5, 0, (0 : ℚ))) ∧
    (c6s2.currentTask.map (fun t => (t.currentStep, t.progress)) = some (1, (20 : ℚ))) ∧
    (c6s1.currentTask.map (fun t => t.id) = c6s2.currentTask.map (fun t => t.id)) ∧
    (c6s1.currentTask.map (fun t => t.steps)
       = some (getTaskSteps TaskType.onboarding Lang.en)) := by
  decide

/-- C7 (corrected): in `AutonomousVoiceAgent.speakResponse` nothing cancels
the prior utterance — `speak("A")` then `speak("B")` leaves BOTH utterances
in the platform queue in order (each will be voiced and fire its own end
event), not just "B". -/
theorem C7_counterexample :
    ((speakResponse "B" Lang.en (speakResponse "A" Lang.en demoStart).1).1).synthQueue
       = ["A", "B"] ∧
    ¬(((speakResponse "B" Lang.en (speakResponse "A" Lang.en demoStart).1).1).synthQueue
       = ["B"]) := by
  decide

/-- C7 (amended): last-write-wins holds only for the `VoiceInterface`
variant, which calls `speechSynthesis.cancel()` first, so after
`speak("A"); speak("B")` exactly "B" remains queued; the
`AutonomousVoiceAgent` variant enqueues without cancelling, so both
utterances are appended and each fires its own end event. -/
theorem C7_amended (s : AgentState) (A B : String) (la lb : Lang)
    (hA : jsTrim A ≠ "") (hB : jsTrim B ≠ "") :
    (((speakResponse B lb (speakResponse A la s).1).1).synthQueue
       = s.synthQueue ++ [A, B]) ∧
    (∀ st : SynthState, viSpeakResponse B (viSpeakResponse A st) = ⟨[B]⟩) := by
  constructor
  · unfold speakResponse
    rw [if_neg hA, if_neg hB]
    simp
  · intro st
    rfl

/-- C7 witness: the amended theorem applied to the started session and the
utterances "A", "B". -/
theorem C7_witness :
    (((speakResponse "B" Lang.en (speakResponse "A" Lang.ja demoStart).1).1).synthQueue
       = demoStart.synthQueue ++ ["A", "B"]) ∧
    (∀ st : SynthState, viSpeakResponse "B" (viSpeakResponse "A" st) = ⟨["B"]⟩) :=
  C7_amended demoStart "A" "B" Lang.ja Lang.en (by decide) (by decide)

/-- C8 (corrected): with the microphone denied, `toggleAgent` still leaves
the orchestrator active (NOT idle), still initializes speech recognition
and schedules the welcome message; the failure is only logged to the
console, never surfaced to the caller as a `DeviceError`. -/
theorem C8_counterexample :
    ((toggleOn false initState).1.isActive = true) ∧
    ((toggleOn false initState).1.recognitionReady = true) ∧
    ((toggleOn false initState).1.streamAcquired = false) ∧
    ((toggleOn false initState).2
       = [Effect.consoleError "Error accessing microphone",
          Effect.scheduleWelcome (welcomeMessage Lang.ja) Lang.ja]) := by
  decide

/-- C8 (amended): for every state, starting with the microphone denied
catches the `getUserMedia` rejection inside `initializeAudioVisualization`
and merely logs it; the agent becomes (or stays) active, recognition is
initialized, no stream is acquired, and the only effects are the console
log and the scheduled welcome message. -/
theorem C8_amended (s : AgentState) :
    ((toggleOn false s).1.isActive = true) ∧
    ((toggleOn false s).1.recognitionReady = true) ∧
    ((toggleOn false s).1.streamAcquired = s.streamAcquired) ∧
    ((toggleOn false s).2
       = [Effect.consoleError "Error accessing microphone",
          Effect.scheduleWelcome (welcomeMessage s.language) s.language]) :=
  ⟨rfl, rfl, rfl, rfl⟩

/-- C9 (confirmed): when the remote call for the in-flight turn fails, the
orchestrator speaks exactly one fallback message in the language of the
triggering turn (the Japanese text for 'ja' — itself detected as Japanese
by the code's own detector — the English text otherwise), clears
`isProcessing`, retires the pending call without re-dispatching it, leaves
the conversation log, the task and `isActive` untouched, and once the
fallback utterance ends the session is listening again. -/
theorem C9_inference_error (s : AgentState) (p : PendingCall)
    (rest : List PendingCall) (hp : s.pending = p :: rest) :
    ((handleUserInputError s).1.isProcessing = false) ∧
    ((handleUserInputError s).1.pending = rest) ∧
    ((handleUserInputError s).1.conversation = s.conversation) ∧
    ((handleUserInputError s).1.currentTask = s.currentTask) ∧
    ((handleUserInputError s).1.isActive = s.isActive) ∧
    ((handleUserInputError s).2
       = [Effect.speak (if p.language = Lang.ja then jaErrorMessage else enErrorMessage)
            p.language]) ∧
    ((handleUserInputError s).2.countP isDispatchFx = 0) ∧
    (detectLanguage jaErrorMessage = Lang.ja ∧ detectLanguage enErrorMessage = Lang.en) ∧
    ((synthesisEnd (handleUserInputError s).1).1.isSpeaking = false) := by
  rw [handleUserInputError_eq s p rest hp]
  simp only [errorStep]
  refine ⟨by trivial, by trivial, speakResponse_conversation _ _ _,
    speakResponse_currentTask _ _ _, speakResponse_isActive _ _ _, ?_, ?_,
    by decide, by trivial⟩
  · rw [speakResponse_snd]
    by_cases hl : p.language = Lang.ja
    · rw [if_pos hl, if_neg (by decide : ¬(jsTrim jaErrorMessage = ""))]
    · rw [if_neg hl, if_neg (by decide : ¬(jsTrim enErrorMessage = ""))]
  · rw [speakResponse_snd]
    split
    · rfl
    · simp [List.countP_cons, isDispatchFx]

/-- C9 witness: the theorem applied to the concrete mid-flight state. -/
theorem C9_witness :
    ((handleUserInputError demoDispatched).1.isProcessing = false) ∧
    ((handleUserInputError demoDispatched).1.pending = []) ∧
    ((handleUserInputError demoDispatched).1.conversation = demoDispatched.conversation) ∧
    ((handleUserInputError demoDispatched).1.currentTask = demoDispatched.currentTask) ∧
    ((handleUserInputError demoDispatched).1.isActive = demoDispatched.isActive) ∧
    ((handleUserInputError demoDispatched).2
       = [Effect.speak (if (PendingCall.mk "register new customer Tanaka" Lang.en 0).language
             = Lang.ja then jaErrorMessage else enErrorMessage)
            (PendingCall.mk "register new customer Tanaka" Lang.en 0).language]) ∧
    ((handleUserInputError demoDispatched).2.countP isDispatchFx = 0) ∧
    (detectLanguage jaErrorMessage = Lang.ja ∧ detectLanguage enErrorMessage = Lang.en) ∧
    ((synthesisEnd (handleUserInputError demoDispatched).1).1.isSpeaking = false) :=
  C9_inference_error demoDispatched ⟨"register new customer Tanaka", Lang.en, 0⟩ []
    (by decide)

/-- C10 (confirmed): `detectLanguage` is a pure function of the transcript
text and tags it 'ja' exactly when some character lies in the hiragana
(U+3040–U+309F), katakana (U+30A0–U+30FF) or CJK-ideograph
(U+4E00–U+9FAF) range, and 'en' in every other case. -/
theorem C10_language_detection (text : String) :
    (detectLanguage text = Lang.ja ↔
       ∃ c ∈ text.data,
         (0x3040 ≤ c.toNat ∧ c.toNat ≤ 0x309F) ∨
         (0x30A0 ≤ c.toNat ∧ c.toNat ≤ 0x30FF) ∨
         (0x4E00 ≤ c.toNat ∧ c.toNat ≤ 0x9FAF)) ∧
    (detectLanguage text = Lang.ja ∨ detectLanguage text = Lang.en) := by
  have hany : text.data.any isJapaneseChar = true ↔
      ∃ c ∈ text.data,
        (0x3040 ≤ c.toNat ∧ c.toNat ≤ 0x309F) ∨
        (0x30A0 ≤ c.toNat ∧ c.toNat ≤ 0x30FF) ∨
        (0x4E00 ≤ c.toNat ∧ c.toNat ≤ 0x9FAF) := by
    simp [isJapaneseChar, or_assoc]
  constructor
  · rw [← hany]
    unfold detectLanguage
    cases hb : text.data.any isJapaneseChar
    · simp
    · simp
  · unfold detectLanguage
    cases hb : text.data.any isJapaneseChar
    · simp
    · simp

end Brytt
